import Mathlib

/-!
Verification development for the `xes` crate, a reader/writer for the
eXtensible Event Stream (XES) XML format.

The embedding models the repository's core faithfully:
* the XML tree handed to the parser by `roxmltree` is `XmlElement`
  (tag name, XML attributes, element children);
* the flat event stream handed to `quick_xml`'s writer is `List XmlEvent`;
* panics of the Rust code (`unwrap`, `panic!`) become explicit
  `Except ParseErr` errors, one error per panic site;
* `HashMap<String, Attribute>` becomes an association list with
  overwrite-on-insert; the real map's iteration order is unspecified, so
  theorems about attribute order are stated order-insensitively;
* Rust `i64` becomes `Int` with an explicit range check in the lexer;
  `f64` becomes `Rat` with a decimal lexer covering the plain decimal
  core of Rust's float grammar (binary rounding and the textual rendering
  of floats are outside every claim considered here and are modelled only
  up to that scope).
-/

namespace Xes

/-- An XML element as exposed by `roxmltree`: local tag name, XML
attributes in document order, element children in document order. -/
inductive XmlElement where
  | mk : String → List (String × String) → List XmlElement → XmlElement

def XmlElement.tag : XmlElement → String
  | .mk t _ _ => t

def XmlElement.xmlAttrs : XmlElement → List (String × String)
  | .mk _ a _ => a

def XmlElement.children : XmlElement → List XmlElement
  | .mk _ _ c => c

/-- `node.attribute(name)` of `roxmltree`: the value of the first XML
attribute with the given name, if any. -/
def lookupAttr (attrs : List (String × String)) (k : String) : Option String :=
  (attrs.find? (fun p => p.1 == k)).map (fun p => p.2)

/-- `quick_xml` markup events as produced by the serializer:
`Start(BytesStart)` with its pushed attributes, and `End(BytesEnd)`. -/
inductive XmlEvent where
  | start : String → List (String × String) → XmlEvent
  | end_ : String → XmlEvent
deriving DecidableEq, Repr

/-- The `Attribute` enum of `src/ontology/attribute.rs`.  The
`HashMap<String, Attribute>` payload of `List` is modelled as an
association list (see `insertAttr`). -/
inductive Attribute where
  | list : List (String × Attribute) → Attribute
  | string : String → Attribute
  | dateTime : String → Attribute
  | long : Int → Attribute
  | double : Rat → Attribute
  | boolean : Bool → Attribute
  | id : String → Attribute

/-- The attribute mapping `HashMap<String, Attribute>`. -/
abbrev AttrMap := List (String × Attribute)

/-- `HashMap::insert`: overwrites any existing binding of the key.  The
model drops the old binding and appends the new one; since the real
map's iteration order is arbitrary, any entry order is a valid model. -/
def insertAttr (m : AttrMap) (k : String) (v : Attribute) : AttrMap :=
  (m.filter (fun p => p.1 != k)) ++ [(k, v)]

/-- The `Extension` struct: `{name, prefix, uri}` (the field `prefix` is
spelled `prefix_` because `prefix` is a Lean keyword). -/
structure Extension where
  name : String
  prefix_ : String
  uri : String

/-- The `Event` struct of `src/ontology/event.rs`. -/
structure Event where
  attributes : AttrMap

/-- The `Trace` struct of `src/ontology/trace.rs`. -/
structure Trace where
  attributes : AttrMap
  events : List Event

/-- The `Log` struct of `src/ontology/log.rs`.  Note that `version` is a
`String` in the source. -/
structure Log where
  version : String
  features : List String
  extensions : List Extension
  attributes : AttrMap
  traces : List Trace
  events : List Event

/-- `Log::new(version, features)`. -/
def Log.new (version : String) (features : List String) : Log :=
  ⟨version, features, [], [], [], []⟩

/-- The `ATTRIBUTE_TAGS` constant of `src/lib.rs`. -/
def ATTRIBUTE_TAGS : List String :=
  ["list", "string", "datetime", "long", "double", "boolean", "id"]

/-- One error per panic site of the parsing code (`unwrap` on a missing
XML attribute, the `panic!()` arm of the tag dispatch, `unwrap` on a
scalar lexer failure, and a `roxmltree` parse failure). -/
inductive ParseErr where
  | missingKey
  | unrecognizedTag : String → ParseErr
  | scalarLexical : String → String → ParseErr
  | missingVersion
  | missingFeatures
  | missingExtensionField : String → ParseErr
  | malformedXml
deriving DecidableEq, Repr

/-- Digit-string lexer shared by the scalar lexers: all characters must
be decimal digits and there must be at least one. -/
def digitsToNat : List Char → Option Nat
  | [] => none
  | cs =>
    if cs.all Char.isDigit then
      some (cs.foldl (fun n c => 10 * n + (c.toNat - 48)) 0)
    else none

/-- Rust `i64::from_str`: optional sign, decimal digits, value must fit
in a signed 64-bit integer. -/
def parseLong (s : String) : Option Int :=
  let (sign, digits) :=
    match s.toList with
    | '-' :: rest => ((-1 : Int), rest)
    | '+' :: rest => ((1 : Int), rest)
    | rest => ((1 : Int), rest)
  match digitsToNat digits with
  | none => none
  | some n =>
    let v := sign * (n : Int)
    if -(2 : Int) ^ 63 ≤ v ∧ v < (2 : Int) ^ 63 then some v else none

/-- Rust `f64::from_str`, modelled on its plain decimal core: optional
sign, digits, optional point and fraction digits.  Exponent forms,
`inf`/`NaN`, and rounding to binary are outside the claims' scope. -/
def parseDouble (s : String) : Option Rat :=
  let (sign, rest) :=
    match s.toList with
    | '-' :: r => ((-1 : Rat), r)
    | '+' :: r => ((1 : Rat), r)
    | r => ((1 : Rat), r)
  let ip := rest.takeWhile Char.isDigit
  let rest2 := rest.dropWhile Char.isDigit
  match rest2 with
  | [] => (digitsToNat ip).map (fun n => sign * (n : Rat))
  | '.' :: fp =>
    if fp.all Char.isDigit && !(ip.isEmpty && fp.isEmpty) then
      let ipv : Nat := ip.foldl (fun n c => 10 * n + (c.toNat - 48)) 0
      let fpv : Nat := fp.foldl (fun n c => 10 * n + (c.toNat - 48)) 0
      some (sign * ((ipv : Rat) + (fpv : Rat) / (10 : Rat) ^ fp.length))
    else none
  | _ => none

/-- Rust `bool::from_str`: exactly `true` or `false`. -/
def parseBool (s : String) : Option Bool :=
  if s == "true" then some true
  else if s == "false" then some false
  else none

mutual

/-- `parse_attribute` of `src/lib.rs`: read the mandatory `key`; with a
`value` attribute dispatch on the element's own tag into a scalar
variant (the wildcard arm is the source's `panic!()`); without one,
collect the attribute-tagged children into a fresh mapping. -/
def parse_attribute : XmlElement → Except ParseErr (String × Attribute)
  | .mk tag attrs children =>
    match lookupAttr attrs "key" with
    | none => .error .missingKey
    | some key =>
      match lookupAttr attrs "value" with
      | some value =>
        match tag with
        | "string" => .ok (key, .string value)
        | "datetime" => .ok (key, .dateTime value)
        | "long" =>
          match parseLong value with
          | some n => .ok (key, .long n)
          | none => .error (.scalarLexical tag value)
        | "double" =>
          match parseDouble value with
          | some q => .ok (key, .double q)
          | none => .error (.scalarLexical tag value)
        | "boolean" =>
          match parseBool value with
          | some b => .ok (key, .boolean b)
          | none => .error (.scalarLexical tag value)
        | "id" => .ok (key, .id value)
        | _ => .error (.unrecognizedTag tag)
      | none =>
        match parseAttrList children [] with
        | .ok m => .ok (key, .list m)
        | .error e => .error e

/-- The shared child-collection loop: iterate over the children whose
tag is in `ATTRIBUTE_TAGS`, parse each, insert into the mapping
(later keys overwrite earlier ones). -/
def parseAttrList : List XmlElement → AttrMap → Except ParseErr AttrMap
  | [], m => .ok m
  | c :: cs, m =>
    if ATTRIBUTE_TAGS.contains c.tag then
      match parse_attribute c with
      | .ok kv => parseAttrList cs (insertAttr m kv.1 kv.2)
      | .error e => .error e
    else parseAttrList cs m

end

/-- `parse_event` of `src/lib.rs`. -/
def parse_event (e : XmlElement) : Except ParseErr Event :=
  match parseAttrList e.children [] with
  | .ok m => .ok ⟨m⟩
  | .error err => .error err

/-- The `for evente in children.filter(tag == "event")` loop shared by
`parse_trace` and `parse_log`. -/
def parseEventsLoop : List XmlElement → Except ParseErr (List Event)
  | [] => .ok []
  | c :: cs =>
    if c.tag == "event" then
      match parse_event c with
      | .ok ev =>
        match parseEventsLoop cs with
        | .ok evs => .ok (ev :: evs)
        | .error err => .error err
      | .error err => .error err
    else parseEventsLoop cs

/-- `parse_trace` of `src/lib.rs`: the attribute collection loop, then
the event loop, both over the trace element's children. -/
def parse_trace (e : XmlElement) : Except ParseErr Trace :=
  match parseAttrList e.children [] with
  | .ok m =>
    match parseEventsLoop e.children with
    | .ok evs => .ok ⟨m, evs⟩
    | .error err => .error err
  | .error err => .error err

/-- The `for tracee in children.filter(tag == "trace")` loop of
`parse_log`. -/
def parseTracesLoop : List XmlElement → Except ParseErr (List Trace)
  | [] => .ok []
  | c :: cs =>
    if c.tag == "trace" then
      match parse_trace c with
      | .ok t =>
        match parseTracesLoop cs with
        | .ok ts => .ok (t :: ts)
        | .error err => .error err
      | .error err => .error err
    else parseTracesLoop cs

/-- The `for exte in children.filter(tag == "extension")` loop of
`parse_log`: each extension element needs `name`, `prefix` and `uri`,
unwrapped in that order. -/
def parseExtensionsLoop : List XmlElement → Except ParseErr (List Extension)
  | [] => .ok []
  | c :: cs =>
    if c.tag == "extension" then
      match lookupAttr c.xmlAttrs "name" with
      | none => .error (.missingExtensionField "name")
      | some n =>
        match lookupAttr c.xmlAttrs "prefix" with
        | none => .error (.missingExtensionField "prefix")
        | some p =>
          match lookupAttr c.xmlAttrs "uri" with
          | none => .error (.missingExtensionField "uri")
          | some u =>
            match parseExtensionsLoop cs with
            | .ok es => .ok (⟨n, p, u⟩ :: es)
            | .error err => .error err
    else parseExtensionsLoop cs

/-- Rust `char::is_whitespace` on the ASCII whitespace characters (the
Unicode cases are outside every claim here). -/
def isWs (c : Char) : Bool :=
  c == ' ' || c == '\t' || c == '\n' || c == '\r'

/-- Rust `str::trim`: drop leading and trailing whitespace. -/
def trimChars (cs : List Char) : List Char :=
  ((cs.dropWhile isWs).reverse.dropWhile isWs).reverse

/-- Rust `str::split(',')`: split on every comma; the empty string
yields one empty token. -/
def splitOnComma : List Char → List (List Char)
  | [] => [[]]
  | c :: rest =>
    if c == ',' then [] :: splitOnComma rest
    else
      match splitOnComma rest with
      | g :: gs => (c :: g) :: gs
      | [] => [[c]]

/-- `features` handling of `parse_log`: split the declaration on `,`
and trim every token. -/
def splitFeatures (s : String) : List String :=
  (splitOnComma s.toList).map (fun cs => String.mk (trimChars cs))

/-- `parse_log` of `src/lib.rs`: mandatory `version` (note: parsed into
a `String`, which never fails) and `features`, then the extension,
attribute, trace and event loops in that order. -/
def parse_log (e : XmlElement) : Except ParseErr Log :=
  match lookupAttr e.xmlAttrs "version" with
  | none => .error .missingVersion
  | some version =>
    match lookupAttr e.xmlAttrs "features" with
    | none => .error .missingFeatures
    | some fs =>
      match parseExtensionsLoop e.children with
      | .error err => .error err
      | .ok exts =>
        match parseAttrList e.children [] with
        | .error err => .error err
        | .ok m =>
          match parseTracesLoop e.children with
          | .error err => .error err
          | .ok ts =>
            match parseEventsLoop e.children with
            | .error err => .error err
            | .ok evs => .ok ⟨version, splitFeatures fs, exts, m, ts, evs⟩

/-- The loop of `read`: every `log`-tagged child of the document root is
parsed into one `Log`, in document order.  (`read` itself additionally
performs file I/O and XML tokenization, which belong to the external
shell; `readForest` models `read` from the root's children on.) -/
def readForest : List XmlElement → Except ParseErr (List Log)
  | [] => .ok []
  | c :: cs =>
    if c.tag == "log" then
      match parse_log c with
      | .ok l =>
        match readForest cs with
        | .ok ls => .ok (l :: ls)
        | .error err => .error err
      | .error err => .error err
    else readForest cs

/-- `write_extension` of `src/lib.rs`: one start/end pair with the three
fields pushed in order. -/
def write_extension (x : Extension) : List XmlEvent :=
  [.start "extension" [("name", x.name), ("prefix", x.prefix_), ("uri", x.uri)],
   .end_ "extension"]

/-- Rust `i64::to_string`: decimal with a leading `-` for negatives. -/
def printLong (n : Int) : String := toString n

/-- Rust `bool::to_string`. -/
def printBool (b : Bool) : String := if b then "true" else "false"

/-- Rust `f64::to_string` renders the shortest decimal that reads back
to the same float; no claim here depends on the exact text, so the
model renders the rational's canonical form. -/
def printDouble (q : Rat) : String := toString q

/-- The element tag `write_attribute` chooses for an attribute value:
note `date` (not `datetime`) for the `DateTime` variant. -/
def elementNameOf : Attribute → String
  | .list _ => "list"
  | .string _ => "string"
  | .long _ => "long"
  | .double _ => "double"
  | .dateTime _ => "date"
  | .boolean _ => "boolean"
  | .id _ => "id"

mutual

/-- The body of `write_attribute` of `src/lib.rs`, with the tuple
argument curried so the recursion is structural on the value.  The
`attribute` element (tag chosen by the variant, with `key` pushed) is
emitted as its own start/end pair after the match; in the `List` arm
the children are emitted inside a fresh key-less `list` start/end pair
pushed before it. -/
def writeAttr (k : String) : Attribute → List XmlEvent
  | .list l =>
    [XmlEvent.start "list" []] ++ writeAttrList l ++ [XmlEvent.end_ "list"]
      ++ [XmlEvent.start (elementNameOf (.list l)) [("key", k)],
          XmlEvent.end_ (elementNameOf (.list l))]
  | .string s =>
    [XmlEvent.start (elementNameOf (.string s)) [("key", k), ("value", s)],
     XmlEvent.end_ (elementNameOf (.string s))]
  | .long n =>
    [XmlEvent.start (elementNameOf (.long n)) [("key", k), ("value", printLong n)],
     XmlEvent.end_ (elementNameOf (.long n))]
  | .double q =>
    [XmlEvent.start (elementNameOf (.double q)) [("key", k), ("value", printDouble q)],
     XmlEvent.end_ (elementNameOf (.double q))]
  | .dateTime s =>
    [XmlEvent.start (elementNameOf (.dateTime s)) [("key", k), ("value", s)],
     XmlEvent.end_ (elementNameOf (.dateTime s))]
  | .boolean b =>
    [XmlEvent.start (elementNameOf (.boolean b)) [("key", k), ("value", printBool b)],
     XmlEvent.end_ (elementNameOf (.boolean b))]
  | .id s =>
    [XmlEvent.start (elementNameOf (.id s)) [("key", k), ("value", s)],
     XmlEvent.end_ (elementNameOf (.id s))]

/-- The `for sub_attribute in list` / `for attribute in &x.attributes`
loops: write each mapping entry in iteration order. -/
def writeAttrList : List (String × Attribute) → List XmlEvent
  | [] => []
  | (k, v) :: ps => writeAttr k v ++ writeAttrList ps

end

/-- `write_attribute` with the source's tuple signature. -/
def write_attribute (p : String × Attribute) : List XmlEvent :=
  writeAttr p.1 p.2

/-- `write_event` of `src/lib.rs`. -/
def write_event (ev : Event) : List XmlEvent :=
  XmlEvent.start "event" [] :: (writeAttrList ev.attributes ++ [XmlEvent.end_ "event"])

/-- The `for event in &trace.events` / `for event in &log.events` loops. -/
def writeEvents : List Event → List XmlEvent
  | [] => []
  | e :: es => write_event e ++ writeEvents es

/-- `write_trace` of `src/lib.rs`: start, attributes, events, end. -/
def write_trace (t : Trace) : List XmlEvent :=
  XmlEvent.start "trace" []
    :: (writeAttrList t.attributes ++ writeEvents t.events ++ [XmlEvent.end_ "trace"])

/-- The `for trace in &log.traces` loop. -/
def writeTraces : List Trace → List XmlEvent
  | [] => []
  | t :: ts => write_trace t ++ writeTraces ts

/-- The `for extension in &log.extensions` loop. -/
def writeExtensions : List Extension → List XmlEvent
  | [] => []
  | x :: xs => write_extension x ++ writeExtensions xs

/-- `write_log` of `src/lib.rs`: the `log` start tag carries `version`
and `features` (re-joined with `,`), then extensions, attributes,
traces, events, end tag. -/
def write_log (l : Log) : List XmlEvent :=
  XmlEvent.start "log" [("version", l.version), ("features", String.intercalate "," l.features)]
    :: (writeExtensions l.extensions ++ writeAttrList l.attributes
        ++ writeTraces l.traces ++ writeEvents l.events ++ [XmlEvent.end_ "log"])

/-- Rebuild the element forest a balanced markup event list denotes:
this is what the XML tokenizer hands back to the parser when the
serializer's output is written to disk and re-read.  `acc` holds the
(reversed) siblings of the current nesting level, `stack` the open
elements. -/
def buildForestLoop :
    List XmlEvent → List XmlElement → List (String × List (String × String) × List XmlElement) →
    Option (List XmlElement)
  | [], acc, [] => some acc.reverse
  | [], _, _ :: _ => none
  | XmlEvent.start t a :: rest, acc, stack => buildForestLoop rest [] ((t, a, acc) :: stack)
  | XmlEvent.end_ t :: rest, acc, stack =>
    match stack with
    | [] => none
    | (t', a', parentAcc) :: stack' =>
      if t' == t then
        buildForestLoop rest (XmlElement.mk t' a' acc.reverse :: parentAcc) stack'
      else none

/-- The element forest denoted by a markup event list, if balanced. -/
def buildForest (evs : List XmlEvent) : Option (List XmlElement) :=
  buildForestLoop evs [] []

/-- The write-then-read composition: serialize, let the XML layer turn
the markup into an element forest, and run `read`'s parsing loop on it. -/
def readEvents (evs : List XmlEvent) : Except ParseErr (List Log) :=
  match buildForest evs with
  | some els => readForest els
  | none => .error .malformedXml

/-! ## Theorems -/

lemma mem_attribute_tags {s : String} (h : ATTRIBUTE_TAGS.contains s = true) :
    s = "list" ∨ s = "string" ∨ s = "datetime" ∨ s = "long" ∨ s = "double" ∨ s = "boolean" ∨ s = "id" := by
  simp [ATTRIBUTE_TAGS, List.contains] at h
  tauto

lemma unrecTag_attr :
    ∀ e : XmlElement, ∀ t, ATTRIBUTE_TAGS.contains e.tag = true →
      parse_attribute e = .error (ParseErr.unrecognizedTag t) → t = "list" := by
  apply parse_attribute.induct
    (fun e => ∀ t, ATTRIBUTE_TAGS.contains e.tag = true →
      parse_attribute e = .error (ParseErr.unrecognizedTag t) → t = "list")
    (fun cs m => ∀ t, parseAttrList cs m = .error (ParseErr.unrecognizedTag t) → t = "list")
  case _ => intro t a c hk t' hc hp; simp [parse_attribute, hk] at hp
  case _ => intro a c key hk v hv t' hc hp; simp [parse_attribute, hk, hv] at hp
  case _ => intro a c key hk v hv t' hc hp; simp [parse_attribute, hk, hv] at hp
  case _ => intro a c key hk v hv n hn t' hc hp; simp [parse_attribute, hk, hv, hn] at hp
  case _ => intro a c key hk v hv hn t' hc hp; simp [parse_attribute, hk, hv, hn] at hp
  case _ => intro a c key hk v hv q hq t' hc hp; simp [parse_attribute, hk, hv, hq] at hp
  case _ => intro a c key hk v hv hq t' hc hp; simp [parse_attribute, hk, hv, hq] at hp
  case _ => intro a c key hk v hv b hb t' hc hp; simp [parse_attribute, hk, hv, hb] at hp
  case _ => intro a c key hk v hv hb t' hc hp; simp [parse_attribute, hk, hv, hb] at hp
  case _ => intro a c key hk v hv t' hc hp; simp [parse_attribute, hk, hv] at hp
  case _ =>
    intro t a c key hk v hv h1 h2 h3 h4 h5 h6 t' hc hp
    simp only [XmlElement.tag] at hc
    rcases mem_attribute_tags hc with h|h|h|h|h|h|h
    · subst h
      simp [parse_attribute, hk, hv] at hp
      exact hp.symm
    · exact absurd h h1
    · exact absurd h h2
    · exact absurd h h3
    · exact absurd h h4
    · exact absurd h h5
    · exact absurd h h6
  case _ => intro t a c key hk hv m hm ih t' hc hp; simp [parse_attribute, hk, hv, hm] at hp
  case _ =>
    intro t a c key hk hv e he ih t' hc hp
    simp only [parse_attribute, hk, hv, he, Except.error.injEq] at hp
    exact ih t' (he.trans (by rw [hp]))
  case _ => intro m t hp; simp [parseAttrList] at hp
  case _ =>
    intro c cs m hc kv hkv ih1 ih2 t hp
    simp only [parseAttrList, hc, if_true, hkv] at hp
    exact ih2 t hp
  case _ =>
    intro c cs m hc e he ih1 t hp
    simp only [parseAttrList, hc, if_true, he, Except.error.injEq] at hp
    exact ih1 t hc (he.trans (by rw [hp]))
  case _ =>
    intro c cs m hc ih t hp
    simp only [parseAttrList] at hp
    rw [if_neg hc] at hp
    exact ih t hp

lemma unrecTag_attrList (cs : List XmlElement) :
    ∀ m t, parseAttrList cs m = .error (ParseErr.unrecognizedTag t) → t = "list" := by
  induction cs with
  | nil => intro m t hp; simp [parseAttrList] at hp
  | cons c cs ih =>
    intro m t hp
    simp only [parseAttrList] at hp
    by_cases hc : ATTRIBUTE_TAGS.contains c.tag = true
    · rw [if_pos hc] at hp
      cases he : parse_attribute c with
      | ok kv => rw [he] at hp; exact ih _ t hp
      | error e =>
        rw [he] at hp
        simp only [Except.error.injEq] at hp
        exact unrecTag_attr c t hc (he.trans (by rw [hp]))
    · rw [if_neg hc] at hp
      exact ih m t hp

lemma unrecTag_event (e : XmlElement) :
    ∀ t, parse_event e = .error (ParseErr.unrecognizedTag t) → t = "list" := by
  intro t hp
  simp only [parse_event] at hp
  cases he : parseAttrList e.children [] with
  | ok m => rw [he] at hp; simp at hp
  | error err =>
    rw [he] at hp
    simp only [Except.error.injEq] at hp
    exact unrecTag_attrList e.children [] t (he.trans (by rw [hp]))

lemma unrecTag_eventsLoop (cs : List XmlElement) :
    ∀ t, parseEventsLoop cs = .error (ParseErr.unrecognizedTag t) → t = "list" := by
  induction cs with
  | nil => intro t hp; simp [parseEventsLoop] at hp
  | cons c cs ih =>
    intro t hp
    simp only [parseEventsLoop] at hp
    by_cases hc : (c.tag == "event") = true
    · rw [if_pos hc] at hp
      cases he : parse_event c with
      | ok ev =>
        rw [he] at hp
        cases hr : parseEventsLoop cs with
        | ok evs => rw [hr] at hp; simp at hp
        | error err =>
          rw [hr] at hp
          simp only [Except.error.injEq] at hp
          exact ih t (hr.trans (by rw [hp]))
      | error err =>
        rw [he] at hp
        simp only [Except.error.injEq] at hp
        exact unrecTag_event c t (he.trans (by rw [hp]))
    · rw [if_neg hc] at hp
      exact ih t hp

lemma unrecTag_trace (e : XmlElement) :
    ∀ t, parse_trace e = .error (ParseErr.unrecognizedTag t) → t = "list" := by
  intro t hp
  simp only [parse_trace] at hp
  cases ha : parseAttrList e.children [] with
  | ok m =>
    rw [ha] at hp
    cases he : parseEventsLoop e.children with
    | ok evs => rw [he] at hp; simp at hp
    | error err =>
      rw [he] at hp
      simp only [Except.error.injEq] at hp
      exact unrecTag_eventsLoop e.children t (he.trans (by rw [hp]))
  | error err =>
    rw [ha] at hp
    simp only [Except.error.injEq] at hp
    exact unrecTag_attrList e.children [] t (ha.trans (by rw [hp]))

lemma unrecTag_tracesLoop (cs : List XmlElement) :
    ∀ t, parseTracesLoop cs = .error (ParseErr.unrecognizedTag t) → t = "list" := by
  induction cs with
  | nil => intro t hp; simp [parseTracesLoop] at hp
  | cons c cs ih =>
    intro t hp
    simp only [parseTracesLoop] at hp
    by_cases hc : (c.tag == "trace") = true
    · rw [if_pos hc] at hp
      cases he : parse_trace c with
      | ok tr =>
        rw [he] at hp
        cases hr : parseTracesLoop cs with
        | ok ts => rw [hr] at hp; simp at hp
        | error err =>
          rw [hr] at hp
          simp only [Except.error.injEq] at hp
          exact ih t (hr.trans (by rw [hp]))
      | error err =>
        rw [he] at hp
        simp only [Except.error.injEq] at hp
        exact unrecTag_trace c t (he.trans (by rw [hp]))
    · rw [if_neg hc] at hp
      exact ih t hp

lemma unrecTag_extLoop (cs : List XmlElement) :
    ∀ t, parseExtensionsLoop cs = .error (ParseErr.unrecognizedTag t) → t = "list" := by
  induction cs with
  | nil => intro t hp; simp [parseExtensionsLoop] at hp
  | cons c cs ih =>
    intro t hp
    simp only [parseExtensionsLoop] at hp
    by_cases hc : (c.tag == "extension") = true
    · rw [if_pos hc] at hp
      cases hn : lookupAttr c.xmlAttrs "name" with
      | none => rw [hn] at hp; simp at hp
      | some n =>
        rw [hn] at hp
        cases hpr : lookupAttr c.xmlAttrs "prefix" with
        | none => rw [hpr] at hp; simp at hp
        | some p =>
          rw [hpr] at hp
          cases hu : lookupAttr c.xmlAttrs "uri" with
          | none => rw [hu] at hp; simp at hp
          | some u =>
            rw [hu] at hp
            cases hr : parseExtensionsLoop cs with
            | ok es => rw [hr] at hp; simp at hp
            | error err =>
              rw [hr] at hp
              simp only [Except.error.injEq] at hp
              exact ih t (hr.trans (by rw [hp]))
    · rw [if_neg hc] at hp
      exact ih t hp

lemma unrecTag_log (e : XmlElement) :
    ∀ t, parse_log e = .error (ParseErr.unrecognizedTag t) → t = "list" := by
  intro t hp
  simp only [parse_log] at hp
  cases hv : lookupAttr e.xmlAttrs "version" with
  | none => rw [hv] at hp; simp at hp
  | some v =>
    rw [hv] at hp
    cases hf : lookupAttr e.xmlAttrs "features" with
    | none => rw [hf] at hp; simp at hp
    | some f =>
      rw [hf] at hp
      cases hx : parseExtensionsLoop e.children with
      | error err =>
        rw [hx] at hp
        simp only [Except.error.injEq] at hp
        exact unrecTag_extLoop e.children t (hx.trans (by rw [hp]))
      | ok exts =>
        rw [hx] at hp
        cases ha : parseAttrList e.children [] with
        | error err =>
          rw [ha] at hp
          simp only [Except.error.injEq] at hp
          exact unrecTag_attrList e.children [] t (ha.trans (by rw [hp]))
        | ok m =>
          rw [ha] at hp
          cases ht : parseTracesLoop e.children with
          | error err =>
            rw [ht] at hp
            simp only [Except.error.injEq] at hp
            exact unrecTag_tracesLoop e.children t (ht.trans (by rw [hp]))
          | ok ts =>
            rw [ht] at hp
            cases hev : parseEventsLoop e.children with
            | error err =>
              rw [hev] at hp
              simp only [Except.error.injEq] at hp
              exact unrecTag_eventsLoop e.children t (hev.trans (by rw [hp]))
            | ok evs => rw [hev] at hp; simp at hp

lemma unrecTag_readForest (els : List XmlElement) :
    ∀ t, readForest els = .error (ParseErr.unrecognizedTag t) → t = "list" := by
  induction els with
  | nil => intro t hp; simp [readForest] at hp
  | cons c cs ih =>
    intro t hp
    simp only [readForest] at hp
    by_cases hc : (c.tag == "log") = true
    · rw [if_pos hc] at hp
      cases he : parse_log c with
      | ok l =>
        rw [he] at hp
        cases hr : readForest cs with
        | ok ls => rw [hr] at hp; simp at hp
        | error err =>
          rw [hr] at hp
          simp only [Except.error.injEq] at hp
          exact ih t (hr.trans (by rw [hp]))
      | error err =>
        rw [he] at hp
        simp only [Except.error.injEq] at hp
        exact unrecTag_log c t (he.trans (by rw [hp]))
    · rw [if_neg hc] at hp
      exact ih t hp

/-- C1: the round-trip property fails on the code.  For the log
`⟨version "1.0", features ["a"]⟩` carrying the single attribute
`"k" ↦ List {}` — a value constructed without any unrecognized-tag
condition, and containing no DateTime attribute — serializing with
`write_log` and re-reading the resulting markup does not return the
log: it aborts with the missing-`key` panic, because the serializer
emits the list's children under a key-less `list` element and attaches
`key` to a separate empty `list` element emitted after it. -/
theorem c1_roundtrip_fails_on_list_attribute :
    readEvents (write_log ⟨"1.0", ["a"], [], [("k", Attribute.list [])], [], []⟩)
      = .error ParseErr.missingKey := rfl

/-- C2: evaluated on the List attribute `"k" ↦ List {"a" ↦ String "x"}`,
`write_attribute` does not emit one `list` start carrying `key` around
the children: it emits a key-less `list` start, the children, the
`list` end, and then a separate empty `list` element that carries the
`key` — diverging from what `parse_attribute` expects. -/
theorem c2_list_key_on_separate_element :
    write_attribute ("k", Attribute.list [("a", Attribute.string "x")]) =
      [XmlEvent.start "list" [], XmlEvent.start "string" [("key", "a"), ("value", "x")],
       XmlEvent.end_ "string", XmlEvent.end_ "list",
       XmlEvent.start "list" [("key", "k")], XmlEvent.end_ "list"] := rfl

/-- C4 counterexample: a log element whose `version` text is not a
numeric literal parses successfully, and the resulting `Log` carries
the raw text — the claim that non-numeric version text makes the read
fail is false on the code (`version` is a `String` field and
`parse::<String>` never fails). -/
theorem c4_counterexample :
    readForest [XmlElement.mk "log" [("version", "not-a-number"), ("features", "")] []]
      = .ok [⟨"not-a-number", [""], [], [], [], []⟩] := rfl

/-- C4 amended: `parse_log` reads the mandatory `version` attribute and
stores its text verbatim as the log's (string-typed) version; no
numeric parse is involved, so no version text can make the read fail —
only a missing `version` attribute can. -/
theorem c4_version_stored_verbatim :
    ∀ v f, parse_log (XmlElement.mk "log" [("version", v), ("features", f)] [])
      = .ok ⟨v, splitFeatures f, [], [], [], []⟩ := fun _ _ => rfl

/-- C5 counterexample: an element with tag `foo` — outside the
recognized attribute tag set — carrying both `key` and `value` inside a
log element does not reach `parse_attribute` and triggers no failure:
the read succeeds and skips it, because every call site filters
children by `ATTRIBUTE_TAGS` first. -/
theorem c5_counterexample :
    readForest [XmlElement.mk "log" [("version", "1.0"), ("features", "f")]
        [XmlElement.mk "foo" [("key", "k"), ("value", "v")] []]]
      = .ok [⟨"1.0", ["f"], [], [], [], []⟩] := rfl

/-- C5 amended: the unrecognized-tag error branch of `parse_attribute`
is reachable from the read entry point, but only through a `list`-tagged
element that carries a `value` attribute — never through an element
whose tag lies outside the recognized attribute tag set, since every
call site filters children by that set first.  First conjunct: a
concrete document whose log contains `<list key value>` makes the read
fail with the unrecognized-tag error.  Second conjunct: every
unrecognized-tag failure of the whole read names the tag `list`. -/
theorem c5_unrecognized_tag_reachable_only_via_list :
    readForest [XmlElement.mk "log" [("version", "1.0"), ("features", "f")]
        [XmlElement.mk "list" [("key", "k"), ("value", "v")] []]]
      = .error (ParseErr.unrecognizedTag "list")
    ∧ (∀ els t, readForest els = .error (ParseErr.unrecognizedTag t) → t = "list") :=
  ⟨rfl, fun els t h => unrecTag_readForest els t h⟩

/-- C5 witness: the second conjunct applied at the concrete document of
the first, its hypothesis discharged by evaluation. -/
theorem c5_witness : ("list" : String) = "list" :=
  c5_unrecognized_tag_reachable_only_via_list.2
    [XmlElement.mk "log" [("version", "1.0"), ("features", "f")]
      [XmlElement.mk "list" [("key", "k"), ("value", "v")] []]]
    "list" rfl

lemma parse_attribute_dateTime_tag :
    ∀ t a c k s, parse_attribute (XmlElement.mk t a c) = .ok (k, Attribute.dateTime s) →
      t = "datetime" := by
  intro t a c k s h
  simp only [parse_attribute] at h
  repeat' split at h
  all_goals simp_all

/-- C3: the DateTime tag asymmetry.  `write_attribute` emits every
DateTime attribute under the element tag `date`; `date` is not in the
recognized attribute tag set; `parse_attribute` yields a DateTime
variant only for elements tagged `datetime`; and a serialized DateTime
element is silently dropped (not read back as a DateTime) when parsed
inside an event. -/
theorem c3_datetime_tag_asymmetry :
    (∀ k s, write_attribute (k, Attribute.dateTime s) =
      [XmlEvent.start "date" [("key", k), ("value", s)], XmlEvent.end_ "date"])
    ∧ ATTRIBUTE_TAGS.contains "date" = false
    ∧ (∀ t a c k s, parse_attribute (XmlElement.mk t a c) = .ok (k, Attribute.dateTime s) →
        t = "datetime")
    ∧ (∀ k s, parse_event (XmlElement.mk "event" []
        [XmlElement.mk "date" [("key", k), ("value", s)] []]) = .ok ⟨[]⟩) :=
  ⟨fun _ _ => rfl, rfl, parse_attribute_dateTime_tag, fun _ _ => rfl⟩

/-- C3 witness: the theorem applied at a concrete DateTime attribute
and at a concrete `datetime` element, hypotheses discharged by
evaluation. -/
theorem c3_witness :
    write_attribute ("time", Attribute.dateTime "2024-01-01") =
      [XmlEvent.start "date" [("key", "time"), ("value", "2024-01-01")], XmlEvent.end_ "date"]
    ∧ ("datetime" : String) = "datetime" :=
  ⟨c3_datetime_tag_asymmetry.1 "time" "2024-01-01",
   c3_datetime_tag_asymmetry.2.2.1 "datetime" [("key", "a"), ("value", "x")] [] "a" "x" rfl⟩

lemma attr_tag_not_structural {s : String} (h : ATTRIBUTE_TAGS.contains s = true) :
    (s == "event") = false ∧ (s == "trace") = false
      ∧ (s == "extension") = false ∧ (s == "log") = false := by
  rcases mem_attribute_tags h with h|h|h|h|h|h|h <;> subst h <;> exact ⟨rfl, rfl, rfl, rfl⟩

/-- C6: last-write-wins on duplicate keys.  For any two
attribute-tagged children that parse to the same key `k` with values
`v1` then `v2`, each of the four containers — a List attribute, an
event, a trace, and a log — parses its children `[e1, e2]` into a
mapping with the single entry `(k, v2)`, the later (document-order)
child's value. -/
theorem c6_last_write_wins
    (k : String) (e1 e2 : XmlElement) (v1 v2 : Attribute)
    (h1 : parse_attribute e1 = .ok (k, v1)) (h2 : parse_attribute e2 = .ok (k, v2))
    (t1 : ATTRIBUTE_TAGS.contains e1.tag = true) (t2 : ATTRIBUTE_TAGS.contains e2.tag = true) :
    parse_attribute (XmlElement.mk "list" [("key", "outer")] [e1, e2])
      = .ok ("outer", Attribute.list [(k, v2)])
    ∧ parse_event (XmlElement.mk "event" [] [e1, e2]) = .ok ⟨[(k, v2)]⟩
    ∧ parse_trace (XmlElement.mk "trace" [] [e1, e2]) = .ok ⟨[(k, v2)], []⟩
    ∧ parse_log (XmlElement.mk "log" [("version", "1.0"), ("features", "")] [e1, e2])
      = .ok ⟨"1.0", [""], [], [(k, v2)], [], []⟩ := by
  have hl : parseAttrList [e1, e2] [] = .ok [(k, v2)] := by
    simp only [parseAttrList, t1, t2, if_true, h1, h2]
    simp [insertAttr]
  have hev1 := (attr_tag_not_structural t1).1
  have hev2 := (attr_tag_not_structural t2).1
  have htr1 := (attr_tag_not_structural t1).2.1
  have htr2 := (attr_tag_not_structural t2).2.1
  have hx1 := (attr_tag_not_structural t1).2.2.1
  have hx2 := (attr_tag_not_structural t2).2.2.1
  have hevloop : parseEventsLoop [e1, e2] = .ok [] := by
    simp [parseEventsLoop, hev1, hev2]
  have htrloop : parseTracesLoop [e1, e2] = .ok [] := by
    simp [parseTracesLoop, htr1, htr2]
  have hxloop : parseExtensionsLoop [e1, e2] = .ok [] := by
    simp [parseExtensionsLoop, hx1, hx2]
  refine ⟨?_, ?_, ?_, ?_⟩
  · simp [parse_attribute, lookupAttr, hl]
  · simp [parse_event, XmlElement.children, hl]
  · simp [parse_trace, XmlElement.children, hl, hevloop]
  · simp [parse_log, XmlElement.xmlAttrs, XmlElement.children, lookupAttr,
      hxloop, hl, htrloop, hevloop]
    rfl

/-- C6 witness: the theorem applied to two concrete `string` elements
sharing the key `a`, hypotheses discharged by evaluation. -/
theorem c6_witness :
    parse_attribute (XmlElement.mk "list" [("key", "outer")]
        [XmlElement.mk "string" [("key", "a"), ("value", "1")] [],
         XmlElement.mk "string" [("key", "a"), ("value", "2")] []])
      = .ok ("outer", Attribute.list [("a", Attribute.string "2")])
    ∧ parse_event (XmlElement.mk "event" []
        [XmlElement.mk "string" [("key", "a"), ("value", "1")] [],
         XmlElement.mk "string" [("key", "a"), ("value", "2")] []])
      = .ok ⟨[("a", Attribute.string "2")]⟩
    ∧ parse_trace (XmlElement.mk "trace" []
        [XmlElement.mk "string" [("key", "a"), ("value", "1")] [],
         XmlElement.mk "string" [("key", "a"), ("value", "2")] []])
      = .ok ⟨[("a", Attribute.string "2")], []⟩
    ∧ parse_log (XmlElement.mk "log" [("version", "1.0"), ("features", "")]
        [XmlElement.mk "string" [("key", "a"), ("value", "1")] [],
         XmlElement.mk "string" [("key", "a"), ("value", "2")] []])
      = .ok ⟨"1.0", [""], [], [("a", Attribute.string "2")], [], []⟩ :=
  c6_last_write_wins "a"
    (XmlElement.mk "string" [("key", "a"), ("value", "1")] [])
    (XmlElement.mk "string" [("key", "a"), ("value", "2")] [])
    (Attribute.string "1") (Attribute.string "2") rfl rfl rfl rfl

/-- C7: missing mandatory XML attributes are fatal.  A log element
lacking `version` fails with the missing-version error (whatever its
children); one with `version` but no `features` fails likewise; an
attribute element lacking `key` fails; an extension element lacking
`name`, or `prefix`, or `uri` makes the whole `parse_log` fail; an
attribute-tagged child of a log lacking its `key` makes the whole
`parse_log` fail; every `log`-tagged root child whose parse fails
aborts the whole read, wherever it sits among the root's children (no
default, no per-element skip-and-continue); and in particular a
`log`-tagged root child lacking `version` makes the whole read fail. -/
theorem c7_missing_mandatory_fatal :
    (∀ t a c, lookupAttr a "version" = none →
      parse_log (XmlElement.mk t a c) = .error ParseErr.missingVersion)
    ∧ (∀ t a c v, lookupAttr a "version" = some v → lookupAttr a "features" = none →
      parse_log (XmlElement.mk t a c) = .error ParseErr.missingFeatures)
    ∧ (∀ t a c, lookupAttr a "key" = none →
      parse_attribute (XmlElement.mk t a c) = .error ParseErr.missingKey)
    ∧ (∀ a x v f, lookupAttr a "version" = some v → lookupAttr a "features" = some f →
      (x.tag == "extension") = true → lookupAttr x.xmlAttrs "name" = none →
      parse_log (XmlElement.mk "log" a [x]) = .error (ParseErr.missingExtensionField "name"))
    ∧ (∀ a x v f n, lookupAttr a "version" = some v → lookupAttr a "features" = some f →
      (x.tag == "extension") = true → lookupAttr x.xmlAttrs "name" = some n →
      lookupAttr x.xmlAttrs "prefix" = none →
      parse_log (XmlElement.mk "log" a [x]) = .error (ParseErr.missingExtensionField "prefix"))
    ∧ (∀ a x v f n p, lookupAttr a "version" = some v → lookupAttr a "features" = some f →
      (x.tag == "extension") = true → lookupAttr x.xmlAttrs "name" = some n →
      lookupAttr x.xmlAttrs "prefix" = some p → lookupAttr x.xmlAttrs "uri" = none →
      parse_log (XmlElement.mk "log" a [x]) = .error (ParseErr.missingExtensionField "uri"))
    ∧ (∀ a x v f, lookupAttr a "version" = some v → lookupAttr a "features" = some f →
      ATTRIBUTE_TAGS.contains x.tag = true → lookupAttr x.xmlAttrs "key" = none →
      parse_log (XmlElement.mk "log" a [x]) = .error ParseErr.missingKey)
    ∧ (∀ pre post e err, (e.tag == "log") = true → parse_log e = .error err →
      ∃ errW, readForest (pre ++ e :: post) = .error errW)
    ∧ (∀ pre post a c, lookupAttr a "version" = none →
      ∃ err, readForest (pre ++ XmlElement.mk "log" a c :: post) = .error err) := by
  refine ⟨?_, ?_, ?_, ?_, ?_, ?_, ?_, ?_, ?_⟩
  · intro t a c h; simp [parse_log, XmlElement.xmlAttrs, h]
  · intro t a c v hv hf; simp [parse_log, XmlElement.xmlAttrs, hv, hf]
  · intro t a c h; simp [parse_attribute, h]
  · intro a x v f hv hf hx hn
    obtain ⟨xt, xa, xc⟩ := x
    simp only [XmlElement.tag] at hx
    simp only [XmlElement.xmlAttrs] at hn
    simp [parse_log, XmlElement.xmlAttrs, XmlElement.children, XmlElement.tag, hv, hf,
      parseExtensionsLoop, hx, hn]
  · intro a x v f n hv hf hx hn hpr
    obtain ⟨xt, xa, xc⟩ := x
    simp only [XmlElement.tag] at hx
    simp only [XmlElement.xmlAttrs] at hn hpr
    simp [parse_log, XmlElement.xmlAttrs, XmlElement.children, XmlElement.tag, hv, hf,
      parseExtensionsLoop, hx, hn, hpr]
  · intro a x v f n p hv hf hx hn hpr hu
    obtain ⟨xt, xa, xc⟩ := x
    simp only [XmlElement.tag] at hx
    simp only [XmlElement.xmlAttrs] at hn hpr hu
    simp [parse_log, XmlElement.xmlAttrs, XmlElement.children, XmlElement.tag, hv, hf,
      parseExtensionsLoop, hx, hn, hpr, hu]
  · intro a x v f hv hf hx hk
    have hnext := (attr_tag_not_structural hx).2.2.1
    obtain ⟨xt, xa, xc⟩ := x
    simp only [XmlElement.tag] at hx hnext
    simp only [XmlElement.xmlAttrs] at hk
    simp [parse_log, XmlElement.xmlAttrs, XmlElement.children, XmlElement.tag, hv, hf,
      parseExtensionsLoop, hnext, parseAttrList, hx, parse_attribute, hk]
    rw [if_pos (by simpa using hx)]
  · intro pre post e err htag herr
    induction pre with
    | nil => exact ⟨err, by simp [readForest, htag, herr]⟩
    | cons x pre ih =>
      obtain ⟨errW, herrW⟩ := ih
      by_cases hx : (x.tag == "log") = true
      · cases hpl : parse_log x with
        | error e2 => exact ⟨e2, by simp [readForest, hx, hpl]⟩
        | ok l => exact ⟨errW, by simp [readForest, hx, hpl, herrW]⟩
      · exact ⟨errW, by simp [readForest, hx, herrW]⟩
  · intro pre post a c h
    induction pre with
    | nil =>
      exact ⟨ParseErr.missingVersion,
        by simp [readForest, XmlElement.tag, parse_log, XmlElement.xmlAttrs, h]⟩
    | cons x pre ih =>
      obtain ⟨err, herr⟩ := ih
      by_cases hx : (x.tag == "log") = true
      · cases hpl : parse_log x with
        | error e => exact ⟨e, by simp [readForest, hx, hpl]⟩
        | ok l => exact ⟨err, by simp [readForest, hx, hpl, herr]⟩
      · exact ⟨err, by simp [readForest, hx, herr]⟩

/-- C7 witness: each conjunct applied at a concrete element,
hypotheses discharged by evaluation. -/
theorem c7_witness :
    parse_log (XmlElement.mk "log" [] []) = .error ParseErr.missingVersion
    ∧ parse_log (XmlElement.mk "log" [("version", "1.0")] [])
        = .error ParseErr.missingFeatures
    ∧ parse_attribute (XmlElement.mk "string" [("value", "x")] [])
        = .error ParseErr.missingKey
    ∧ parse_log (XmlElement.mk "log" [("version", "1.0"), ("features", "")]
        [XmlElement.mk "extension" [] []])
        = .error (ParseErr.missingExtensionField "name")
    ∧ parse_log (XmlElement.mk "log" [("version", "1.0"), ("features", "")]
        [XmlElement.mk "extension" [("name", "n")] []])
        = .error (ParseErr.missingExtensionField "prefix")
    ∧ parse_log (XmlElement.mk "log" [("version", "1.0"), ("features", "")]
        [XmlElement.mk "extension" [("name", "n"), ("prefix", "p")] []])
        = .error (ParseErr.missingExtensionField "uri")
    ∧ parse_log (XmlElement.mk "log" [("version", "1.0"), ("features", "")]
        [XmlElement.mk "string" [("value", "x")] []])
        = .error ParseErr.missingKey
    ∧ (∃ errW, readForest [XmlElement.mk "log" [("version", "1.0")] []] = .error errW)
    ∧ ∃ err, readForest [XmlElement.mk "log" [] []] = .error err :=
  ⟨c7_missing_mandatory_fatal.1 "log" [] [] rfl,
   c7_missing_mandatory_fatal.2.1 "log" [("version", "1.0")] [] "1.0" rfl rfl,
   c7_missing_mandatory_fatal.2.2.1 "string" [("value", "x")] [] rfl,
   c7_missing_mandatory_fatal.2.2.2.1 [("version", "1.0"), ("features", "")]
     (XmlElement.mk "extension" [] []) "1.0" "" rfl rfl rfl rfl,
   c7_missing_mandatory_fatal.2.2.2.2.1 [("version", "1.0"), ("features", "")]
     (XmlElement.mk "extension" [("name", "n")] []) "1.0" "" "n" rfl rfl rfl rfl rfl,
   c7_missing_mandatory_fatal.2.2.2.2.2.1 [("version", "1.0"), ("features", "")]
     (XmlElement.mk "extension" [("name", "n"), ("prefix", "p")] []) "1.0" "" "n" "p"
     rfl rfl rfl rfl rfl rfl,
   c7_missing_mandatory_fatal.2.2.2.2.2.2.1 [("version", "1.0"), ("features", "")]
     (XmlElement.mk "string" [("value", "x")] []) "1.0" "" rfl rfl rfl rfl,
   c7_missing_mandatory_fatal.2.2.2.2.2.2.2.1 [] []
     (XmlElement.mk "log" [("version", "1.0")] []) ParseErr.missingFeatures rfl rfl,
   c7_missing_mandatory_fatal.2.2.2.2.2.2.2.2 [] [] [] [] rfl⟩

/-- C8: event order within a trace is preserved.  For a trace element
whose children are the event elements `[x1, x2, x3]` in document
order, parsing yields the event sequence `[v1, v2, v3]` in that order,
and `write_trace` re-emits the stored events in that order. -/
theorem c8_trace_event_order
    (a : List (String × String)) (x1 x2 x3 : XmlElement) (v1 v2 v3 : Event)
    (ht1 : (x1.tag == "event") = true) (ht2 : (x2.tag == "event") = true)
    (ht3 : (x3.tag == "event") = true)
    (h1 : parse_event x1 = .ok v1) (h2 : parse_event x2 = .ok v2)
    (h3 : parse_event x3 = .ok v3) :
    parse_trace (XmlElement.mk "trace" a [x1, x2, x3]) = .ok ⟨[], [v1, v2, v3]⟩
    ∧ (∀ m, write_trace ⟨m, [v1, v2, v3]⟩ =
        XmlEvent.start "trace" [] :: (writeAttrList m
          ++ (write_event v1 ++ write_event v2 ++ write_event v3)
          ++ [XmlEvent.end_ "trace"])) := by
  have e1 : x1.tag = "event" := by simpa using ht1
  have e2 : x2.tag = "event" := by simpa using ht2
  have e3 : x3.tag = "event" := by simpa using ht3
  have hl : parseAttrList [x1, x2, x3] [] = .ok [] := by
    simp [parseAttrList, e1, e2, e3, ATTRIBUTE_TAGS, List.contains]
  have hev : parseEventsLoop [x1, x2, x3] = .ok [v1, v2, v3] := by
    simp [parseEventsLoop, e1, e2, e3, h1, h2, h3]
  constructor
  · simp [parse_trace, XmlElement.children, hl, hev]
  · intro m
    simp [write_trace, writeEvents, List.append_assoc]

/-- C8 witness: the theorem applied at three concrete (empty) event
elements, hypotheses discharged by evaluation. -/
theorem c8_witness :
    parse_trace (XmlElement.mk "trace" []
        [XmlElement.mk "event" [] [], XmlElement.mk "event" [] [],
         XmlElement.mk "event" [] []])
      = .ok ⟨[], [⟨[]⟩, ⟨[]⟩, ⟨[]⟩]⟩
    ∧ write_trace ⟨[("z", Attribute.boolean true)], [⟨[]⟩, ⟨[]⟩, ⟨[]⟩]⟩ =
        XmlEvent.start "trace" [] :: (writeAttrList [("z", Attribute.boolean true)]
          ++ (write_event ⟨[]⟩ ++ write_event ⟨[]⟩ ++ write_event ⟨[]⟩)
          ++ [XmlEvent.end_ "trace"]) :=
  ⟨(c8_trace_event_order [] (XmlElement.mk "event" [] []) (XmlElement.mk "event" [] [])
      (XmlElement.mk "event" [] []) ⟨[]⟩ ⟨[]⟩ ⟨[]⟩ rfl rfl rfl rfl rfl rfl).1,
   (c8_trace_event_order [] (XmlElement.mk "event" [] []) (XmlElement.mk "event" [] [])
      (XmlElement.mk "event" [] []) ⟨[]⟩ ⟨[]⟩ ⟨[]⟩ rfl rfl rfl rfl rfl rfl).2
      [("z", Attribute.boolean true)]⟩

lemma readForest_eq_filter_mapM :
    ∀ els, readForest els = (els.filter (fun e => e.tag == "log")).mapM parse_log := by
  intro els
  induction els with
  | nil => rfl
  | cons c cs ih =>
    by_cases hc : (c.tag == "log") = true
    · simp only [readForest, hc, if_true, List.filter_cons, List.mapM_cons, ih]
      cases hp : parse_log c with
      | error e => simp [hp, Bind.bind, Except.bind]
      | ok l =>
        cases hr : (cs.filter (fun e => e.tag == "log")).mapM parse_log with
        | error e => simp [hp, hr, Bind.bind, Except.bind]
        | ok ls => simp [hp, hr, Bind.bind, Except.bind, pure, Except.pure]
    · simp only [readForest, List.filter_cons, hc, if_false, ih]
      simp [hc]

lemma mapM_parse_log_length :
    ∀ (xs : List XmlElement) (ls : List Log), xs.mapM parse_log = .ok ls → ls.length = xs.length := by
  intro xs
  induction xs with
  | nil =>
    intro ls h
    simp only [List.mapM_nil] at h
    cases h
    rfl
  | cons x xs ih =>
    intro ls h
    rw [List.mapM_cons] at h
    cases hx : parse_log x with
    | error e => rw [hx] at h; simp [Bind.bind, Except.bind] at h
    | ok l =>
      rw [hx] at h
      cases hr : xs.mapM parse_log with
      | error e => rw [hr] at h; simp [Bind.bind, Except.bind] at h
      | ok bs =>
        rw [hr] at h
        simp [Bind.bind, Except.bind, pure, Except.pure] at h
        simp [← h, ih bs hr]

/-- C9: the read loop parses exactly the `log`-tagged root children,
independently and in document order: `readForest` equals `parse_log`
mapped over the `log`-tagged children (so zero log elements give the
empty sequence, not an error), and a successful read returns exactly
one Log per `log` element. -/
theorem c9_one_log_per_element :
    (∀ els, readForest els = (els.filter (fun e => e.tag == "log")).mapM parse_log)
    ∧ (∀ els ls, readForest els = .ok ls →
        ls.length = (els.filter (fun e => e.tag == "log")).length) := by
  refine ⟨readForest_eq_filter_mapM, ?_⟩
  intro els ls h
  rw [readForest_eq_filter_mapM] at h
  exact mapM_parse_log_length _ ls h

/-- C9 witness: the second conjunct applied at a concrete two-log
document, its hypothesis discharged by evaluation. -/
theorem c9_witness :
    ([⟨"1.0", [""], [], [], [], []⟩, ⟨"2.0", ["a", "b"], [], [], [], []⟩] : List Log).length
      = (([XmlElement.mk "log" [("version", "1.0"), ("features", "")] [],
          XmlElement.mk "foo" [] [],
          XmlElement.mk "log" [("version", "2.0"), ("features", "a,b")] []].filter
            (fun e => e.tag == "log"))).length :=
  c9_one_log_per_element.2
    [XmlElement.mk "log" [("version", "1.0"), ("features", "")] [],
     XmlElement.mk "foo" [] [],
     XmlElement.mk "log" [("version", "2.0"), ("features", "a,b")] []]
    [⟨"1.0", [""], [], [], [], []⟩, ⟨"2.0", ["a", "b"], [], [], [], []⟩] rfl

lemma parseAttrList_skip (x : XmlElement) (hx : ATTRIBUTE_TAGS.contains x.tag = false) :
    ∀ pre post m, parseAttrList (pre ++ x :: post) m = parseAttrList (pre ++ post) m := by
  intro pre
  induction pre with
  | nil =>
    intro post m
    simp only [List.nil_append, parseAttrList]
    rw [if_neg (by simp only [hx]; exact Bool.false_ne_true)]
  | cons c cs ih =>
    intro post m
    simp only [List.cons_append, parseAttrList]
    by_cases hc : ATTRIBUTE_TAGS.contains c.tag = true
    · rw [if_pos hc, if_pos hc]
      cases hp : parse_attribute c <;> simp [hp, ih]
    · rw [if_neg hc, if_neg hc]
      exact ih post m

lemma parseEventsLoop_skip (x : XmlElement) (hx : (x.tag == "event") = false) :
    ∀ pre post, parseEventsLoop (pre ++ x :: post) = parseEventsLoop (pre ++ post) := by
  intro pre
  induction pre with
  | nil =>
    intro post
    simp only [List.nil_append, parseEventsLoop]
    rw [if_neg (by simp only [hx]; exact Bool.false_ne_true)]
  | cons c cs ih =>
    intro post
    simp only [List.cons_append, parseEventsLoop]
    by_cases hc : (c.tag == "event") = true
    · rw [if_pos hc, if_pos hc]
      cases hp : parse_event c <;> simp [hp, ih]
    · rw [if_neg hc, if_neg hc]
      exact ih post

lemma parseTracesLoop_skip (x : XmlElement) (hx : (x.tag == "trace") = false) :
    ∀ pre post, parseTracesLoop (pre ++ x :: post) = parseTracesLoop (pre ++ post) := by
  intro pre
  induction pre with
  | nil =>
    intro post
    simp only [List.nil_append, parseTracesLoop]
    rw [if_neg (by simp only [hx]; exact Bool.false_ne_true)]
  | cons c cs ih =>
    intro post
    simp only [List.cons_append, parseTracesLoop]
    by_cases hc : (c.tag == "trace") = true
    · rw [if_pos hc, if_pos hc]
      cases hp : parse_trace c <;> simp [hp, ih]
    · rw [if_neg hc, if_neg hc]
      exact ih post

lemma parseExtensionsLoop_skip (x : XmlElement) (hx : (x.tag == "extension") = false) :
    ∀ pre post, parseExtensionsLoop (pre ++ x :: post) = parseExtensionsLoop (pre ++ post) := by
  intro pre
  induction pre with
  | nil =>
    intro post
    simp only [List.nil_append, parseExtensionsLoop]
    rw [if_neg (by simp only [hx]; exact Bool.false_ne_true)]
  | cons c cs ih =>
    intro post
    simp only [List.cons_append, parseExtensionsLoop]
    by_cases hc : (c.tag == "extension") = true
    · rw [if_pos hc, if_pos hc]
      simp only [List.append_eq]
      rw [ih post]
    · rw [if_neg hc, if_neg hc]
      exact ih post

lemma readForest_skip (x : XmlElement) (hx : (x.tag == "log") = false) :
    ∀ pre post, readForest (pre ++ x :: post) = readForest (pre ++ post) := by
  intro pre
  induction pre with
  | nil =>
    intro post
    simp only [List.nil_append, readForest]
    rw [if_neg (by simp only [hx]; exact Bool.false_ne_true)]
  | cons c cs ih =>
    intro post
    simp only [List.cons_append, readForest]
    by_cases hc : (c.tag == "log") = true
    · rw [if_pos hc, if_pos hc]
      cases hp : parse_log c <;> simp [hp, ih]
    · rw [if_neg hc, if_neg hc]
      exact ih post

/-- C10: children with unrecognized tags are silently skipped.
Inserting an element whose tag is outside every recognized set
(attribute tags, `event`, `trace`, `extension`, `log`) anywhere among
the children of a list attribute, an event, a trace, a log, or the
document root leaves the parse result unchanged — no error, no
contribution.  The second conjunct checks that a `date`-tagged element
(as emitted by the serializer for DateTime) satisfies every side
condition, so it is dropped without failure wherever it appears. -/
theorem c10_unrecognized_children_skipped :
    (∀ x : XmlElement, ATTRIBUTE_TAGS.contains x.tag = false →
      (x.tag == "event") = false → (x.tag == "trace") = false →
      (x.tag == "extension") = false → (x.tag == "log") = false →
      ∀ t a pre post,
        parse_attribute (XmlElement.mk t a (pre ++ x :: post))
          = parse_attribute (XmlElement.mk t a (pre ++ post))
        ∧ parse_event (XmlElement.mk t a (pre ++ x :: post))
          = parse_event (XmlElement.mk t a (pre ++ post))
        ∧ parse_trace (XmlElement.mk t a (pre ++ x :: post))
          = parse_trace (XmlElement.mk t a (pre ++ post))
        ∧ parse_log (XmlElement.mk t a (pre ++ x :: post))
          = parse_log (XmlElement.mk t a (pre ++ post))
        ∧ readForest (pre ++ x :: post) = readForest (pre ++ post))
    ∧ (∀ k s,
        ATTRIBUTE_TAGS.contains (XmlElement.mk "date" [("key", k), ("value", s)] []).tag = false
        ∧ ((XmlElement.mk "date" [("key", k), ("value", s)] []).tag == "event") = false
        ∧ ((XmlElement.mk "date" [("key", k), ("value", s)] []).tag == "trace") = false
        ∧ ((XmlElement.mk "date" [("key", k), ("value", s)] []).tag == "extension") = false
        ∧ ((XmlElement.mk "date" [("key", k), ("value", s)] []).tag == "log") = false) := by
  constructor
  · intro x hattr hev htr hext hlog t a pre post
    refine ⟨?_, ?_, ?_, ?_, ?_⟩
    · simp only [parse_attribute]
      rw [parseAttrList_skip x hattr]
    · simp only [parse_event, XmlElement.children]
      rw [parseAttrList_skip x hattr]
    · simp only [parse_trace, XmlElement.children]
      rw [parseAttrList_skip x hattr, parseEventsLoop_skip x hev]
    · simp only [parse_log, XmlElement.xmlAttrs, XmlElement.children]
      rw [parseExtensionsLoop_skip x hext, parseAttrList_skip x hattr,
        parseTracesLoop_skip x htr, parseEventsLoop_skip x hev]
    · exact readForest_skip x hlog pre post
  · intro k s
    exact ⟨rfl, rfl, rfl, rfl, rfl⟩

/-- C10 witness: the theorem applied at a concrete `qux`-tagged
element inserted before an event element, hypotheses discharged by
evaluation. -/
theorem c10_witness :
    parse_attribute (XmlElement.mk "trace" []
        [XmlElement.mk "qux" [] [], XmlElement.mk "event" [] []])
      = parse_attribute (XmlElement.mk "trace" [] [XmlElement.mk "event" [] []])
    ∧ parse_event (XmlElement.mk "trace" []
        [XmlElement.mk "qux" [] [], XmlElement.mk "event" [] []])
      = parse_event (XmlElement.mk "trace" [] [XmlElement.mk "event" [] []])
    ∧ parse_trace (XmlElement.mk "trace" []
        [XmlElement.mk "qux" [] [], XmlElement.mk "event" [] []])
      = parse_trace (XmlElement.mk "trace" [] [XmlElement.mk "event" [] []])
    ∧ parse_log (XmlElement.mk "trace" []
        [XmlElement.mk "qux" [] [], XmlElement.mk "event" [] []])
      = parse_log (XmlElement.mk "trace" [] [XmlElement.mk "event" [] []])
    ∧ readForest [XmlElement.mk "qux" [] [], XmlElement.mk "event" [] []]
      = readForest [XmlElement.mk "event" [] []] :=
  c10_unrecognized_children_skipped.1 (XmlElement.mk "qux" [] [])
    rfl rfl rfl rfl rfl "trace" [] [] [XmlElement.mk "event" [] []]

end Xes
